import Mathlib

/-!
Verification of the petri environment core (`env.go`).

The Go source under verification is the concurrency/scheduling engine of a
digital-organism simulation: an authoritative grid store with an
alive-membership set, a random sampler, toroidal neighbor computation, a
worker pool processing Introduce/Advance requests, and a lifecycle
coordinator (`Run`/`Stop`).  Pure functions are embedded as Lean functions;
the stateful store is explicit state passing on `EnvState`; the
coordinator's drain loop is a step function over an explicit schedule of
select events, which captures the nondeterministic interleaving of worker
sends, ticks and the stop signal.  Faults (Go panics on slice indexing) are
embedded as `Option` results, `none` meaning the call faults.

The organism collaborator (`cell.go`: `newCell`, `clone`, `live`, the
genome VM) is not part of the core; its interface is modelled from the
spec's collaborator contract.
-/

namespace Petri

/-- Modelled from the spec: a `Cell` is one grid-addressable organism slot,
identified by its linear index and (x, y) position, carrying an alive/dead
flag and opaque organism state (genome, age, …) owned by the external VM
collaborator.  The opaque state is abstracted as a single `Nat`. -/
structure Cell where
  idx : Int
  x : Int
  y : Int
  alive : Bool
  state : Nat
deriving DecidableEq

/-- Modelled from the spec: the collaborator's `clone(cell)` returns a value
copy, so holders never observe store-internal memory.  On a Lean value a
value copy is the value itself. -/
def Cell.clone (c : Cell) : Cell := c

/-- Modelled from the spec: the collaborator's `isAlive(cell)` predicate,
`c.live()` in the Go source. -/
def Cell.live (c : Cell) : Bool := c.alive

/-- Modelled from the spec: `newCell(idx, x, y, genomeSize)` creates the
(dead) organism slot at linear index `idx`; the initial population is empty
until seeding introduces organisms. -/
def newCell (idx x y _genomeSize : Int) : Cell :=
  { idx := idx, x := x, y := y, alive := false, state := 0 }

/-- A `Delta` is an ordered collection of cell snapshots, the complete
outcome of one operation (Go `Delta`, field `Cells`). -/
structure Delta where
  cells : List Cell
deriving DecidableEq

/-- Go `Config`. -/
structure Config where
  inflowFrequency : Int
  viableCellGeneration : Int
  failedKillPenalty : Int
  seedLiveCells : Bool
deriving DecidableEq

/-- Go `defaultConfig`. -/
def defaultConfig : Config :=
  { inflowFrequency := 10, viableCellGeneration := 3, failedKillPenalty := 3,
    seedLiveCells := false }

/-- Go direction constant `DIR_LEFT`. -/
def DIR_LEFT : Nat := 0

/-- Go direction constant `DIR_RIGHT`. -/
def DIR_RIGHT : Nat := 1

/-- Go direction constant `DIR_UP`. -/
def DIR_UP : Nat := 2

/-- Go direction constant `DIR_DOWN`. -/
def DIR_DOWN : Nat := 3

/-- The mutable state owned by `Env`: the cell array (`cells`, a slice of
`Width*Height` cells) and the alive-membership set (`liveCells`, a
`map[int32]bool` whose key set is the membership set).  The immutable
dimensions travel with the state. -/
structure EnvState where
  width : Int
  height : Int
  cells : List Cell
  liveCells : Finset Int

/-- Go `NewEnv`: allocates `width*height` cells, cell `i` at
`(i % width, i / width)`, with an empty alive-membership set. -/
def NewEnv (width height genomeSize : Int) : EnvState :=
  { width := width, height := height,
    cells := (List.range (width * height).toNat).map
      (fun i : Nat => newCell (i : Int) ((i : Int) % width) ((i : Int) / width) genomeSize),
    liveCells := ∅ }

/-- Two's-complement `int32` wraparound: the value of an `int32`
computation whose mathematical result is `z`, reduced modulo `2^32` into
`[-2^31, 2^31)` (`2147483648 = 2^31`, `4294967296 = 2^32`). -/
def wrap32 (z : Int) : Int :=
  (z + 2147483648) % 4294967296 - 2147483648

/-- Go `GetCell(x, y)`: reads `cells[x + Width*y]` and clones it.  `x`,
`y` and `Width` are `int32`, so the linear index is computed with `int32`
wraparound; a Go slice access then panics when the resulting index is
negative or `≥ len`, and the fault is embedded as `none`. -/
def GetCell (e : EnvState) (x y : Int) : Option Cell :=
  let idx := wrap32 (x + e.width * y)
  if 0 ≤ idx then (e.cells.get? idx.toNat).map Cell.clone else none

/-- One iteration of the `applyDelta` loop body: updates the
alive-membership set from `c.live()` and stores a clone of `c` at `c.idx`. -/
def applyCell (e : EnvState) (c : Cell) : EnvState :=
  { e with
    liveCells := if c.live then insert c.idx e.liveCells else e.liveCells.erase c.idx,
    cells := e.cells.set c.idx.toNat c.clone }

/-- Go `applyDelta`: folds the loop body over the delta's cells under the
exclusive write lock. -/
def applyDelta (e : EnvState) (dt : Delta) : EnvState :=
  dt.cells.foldl applyCell e

/-- The alive flag of the cell stored at array position `j`
(`false` past the end of the array). -/
def aliveAt (e : EnvState) (j : Nat) : Bool :=
  match e.cells.get? j with
  | some c => c.alive
  | none => false

/-- The set `{ i : cells[i].alive }` of indices whose stored cell is alive. -/
def aliveIndices (e : EnvState) : Finset Int :=
  ((Finset.range e.cells.length).filter (fun j => aliveAt e j = true)).image
    (fun j : Nat => (j : Int))

/-- The store invariant: the alive-membership set equals the set of indices
whose stored cell is alive. -/
def aliveInv (e : EnvState) : Prop :=
  e.liveCells = aliveIndices e

/-- The `idx` field of the cell stored at array position `j` (defaulting to
`j` past the end, so the well-formedness predicate below is bounded). -/
def cellIdxAt (e : EnvState) (j : Nat) : Int :=
  match e.cells.get? j with
  | some c => c.idx
  | none => (j : Int)

/-- Array/index coherence: the cell stored at position `j` records `j` as
its own linear index (established by `NewEnv` and maintained because
`applyDelta` stores each cell at its own `idx`). -/
def wfIdx (e : EnvState) : Prop :=
  ∀ j, j < e.cells.length → cellIdxAt e j = (j : Int)

/-- Go `getRandomCell`: draws `x ∈ [0, Width)`, `y ∈ [0, Height)` from the
RNG and reads that cell.  The two RNG draws `rand.Int31n(Width)` and
`rand.Int31n(Height)` are modelled by reducing arbitrary naturals modulo
the bounds. -/
def getRandomCell (e : EnvState) (rx ry : Nat) : Option Cell :=
  GetCell e ((rx : Int) % e.width) ((ry : Int) % e.height)

/-- Go `getRandomLiveCell`: enumerates the alive-membership set into the
scratch buffer, returns `nil` when the count is zero, otherwise clones the
cell at a uniformly drawn enumerated index.  The map-iteration order is
immaterial to the drawn set, so the enumeration is modelled by a sorted
listing; the RNG draw `rand.Intn(count)` by an arbitrary natural reduced
modulo the count. -/
def getRandomLiveCell (e : EnvState) (r : Nat) : Option Cell :=
  match (e.liveCells.sort (· ≤ ·)).get?
      (r % (e.liveCells.sort (· ≤ ·)).length) with
  | none => none
  | some i => (e.cells.get? i.toNat).map Cell.clone

/-- The scratch-buffer contents produced by `getRandomDeadCell`'s
enumeration loop: the indices, in array order, of the cells not in the
alive-membership set. -/
def deadIdxBuf (e : EnvState) : List Int :=
  (e.cells.filter (fun c => !(decide (c.idx ∈ e.liveCells)))).map Cell.idx

/-- Go `getRandomDeadCell`: enumerates, in array order, the indices of
cells not in the alive-membership set, returns `nil` when the count is
zero, otherwise clones the cell at a uniformly drawn enumerated index. -/
def getRandomDeadCell (e : EnvState) (r : Nat) : Option Cell :=
  match (deadIdxBuf e).get? (r % (deadIdxBuf e).length) with
  | none => none
  | some i => (e.cells.get? i.toNat).map Cell.clone

/-- The coordinate computed by Go `getNeighbor`'s `switch` on the
direction: wraps at the grid edge, otherwise steps by one.  A direction
outside the four constants falls through the `switch` and leaves the
coordinate unchanged, as in the source. -/
def neighborCoord (e : EnvState) (c : Cell) (dir : Nat) : Int × Int :=
  if dir = DIR_LEFT then
    (if c.x = 0 then e.width - 1 else c.x - 1, c.y)
  else if dir = DIR_RIGHT then
    (if c.x = e.width - 1 then 0 else c.x + 1, c.y)
  else if dir = DIR_UP then
    (c.x, if c.y = 0 then e.height - 1 else c.y - 1)
  else if dir = DIR_DOWN then
    (c.x, if c.y = e.height - 1 then 0 else c.y + 1)
  else (c.x, c.y)

/-- Go `getNeighbor`: reads the cell at the wrapped neighbor coordinate. -/
def getNeighbor (e : EnvState) (c : Cell) (dir : Nat) : Option Cell :=
  GetCell e (neighborCoord e c dir).1 (neighborCoord e c dir).2

/-- The Introduce branch of the worker loop (`process`, `case <-inflow`):
when the current `Config` disallows seeding live cells, sample a random
dead cell and drop the request (`break`, producing no delta) when none
exists; otherwise sample any random cell; then forward the delta produced
by the collaborator's `seed` operation on the sampled cell.  `seed` is the
external collaborator's introduce operation, passed as a parameter. -/
def processInflow (e : EnvState) (cfg : Config) (r rx ry : Nat)
    (seed : Cell → Delta) : Option Delta :=
  if !cfg.seedLiveCells then
    match getRandomDeadCell e r with
    | none => none
    | some c => some (seed c)
  else
    (getRandomCell e rx ry).map seed

/-- The Advance branch of the worker loop (`process`, `case <-exec`):
sample a random live cell; when one exists forward the delta produced by
the collaborator's `exec` operation on it, issuing no Introduce request;
when none exists produce no delta and issue one asynchronous Introduce
request (the spawned `inflow <- true` goroutine).  The result pairs the
optional delta with the number of Introduce requests issued. -/
def processExec (e : EnvState) (r : Nat) (exec : Cell → Delta) :
    Option Delta × Nat :=
  match getRandomLiveCell e r with
  | some c => (some (exec c), 0)
  | none => (none, 1)

/-- The countdown initialization before the steady-state loop
(`inflowTick := e.GetConfig().InflowFrequency`). -/
def runInitialCountdown (cfg : Config) : Int :=
  cfg.inflowFrequency

/-- One `ticker.C` iteration of the steady-state loop: decrement the
countdown; when it reaches zero, send one Introduce request and reset the
countdown from the config read at that instant; always send one Advance
request.  The result is (new countdown, Introduce requests sent, Advance
requests sent). -/
def tickStep (countdown : Int) (cfg : Config) : Int × Nat × Nat :=
  let c := countdown - 1
  if c = 0 then (cfg.inflowFrequency, 1, 1) else (c, 0, 1)

/-- The shutdown actions of `Run`, in the order they become visible:
`close(exec)` inside the stop branch, the `wg.Wait()` after the loop, and
the three deferred closes. -/
inductive ShutEvent where
  | closeExec
  | waitWorkers
  | closeInflow
  | closeDts
  | closeDeltas
deriving DecidableEq

/-- The deferred-close stack of `Run`, listed in the order the `defer`
statements execute and push: `close(inflow)`, then `close(dts)`, then
`close(deltas)`. -/
def runDeferStack : List ShutEvent :=
  [ShutEvent.closeInflow, ShutEvent.closeDts, ShutEvent.closeDeltas]

/-- The shutdown sequence `Run` actually performs: `close(exec)` when the
stop signal is received, `wg.Wait()` after the loop exits, then the
deferred closes popped in last-in-first-out order. -/
def runShutdownSequence : List ShutEvent :=
  [ShutEvent.closeExec, ShutEvent.waitWorkers] ++ runDeferStack.reverse

/-- One select event of the coordinator's steady-state loop, with worker
delta-sends made explicit.  A schedule of these events is one
interleaving: `enq d` is a worker's `dts <- d` landing in the buffered
collection channel, `recvDelta` is the coordinator's `case dt := <-dts`
(ready only when the buffer is nonempty), and `stop` is the coordinator's
`case _, ok := <-e.run` observing the closed stop channel.  Deltas are
identified by numbers. -/
inductive Act where
  | enq (d : Nat)
  | recvDelta
  | stop
deriving DecidableEq

/-- The coordinator-visible state of `Run`'s drain loop: the contents of
the buffered collection channel `dts` (FIFO), the sequence of deltas
applied to the store, the sequence forwarded to the output sink `deltas`,
and whether the loop is still running. -/
structure LoopState where
  buffer : List Nat
  applied : List Nat
  output : List Nat
  running : Bool
deriving DecidableEq

/-- One step of `Run`'s drain loop under one event.  A worker send appends
to the channel buffer (the buffer has capacity `processN`, so the send
succeeds whether or not the coordinator still drains).  While running, a
ready `dts` receive dequeues one delta, applies it (`e.applyDelta(dt)`) and
forwards it (`deltas <- dt`).  The stop signal closes `exec` and ends the
loop (`running = false`); afterwards the coordinator no longer receives, so
later events leave the drain state unchanged except for worker sends. -/
def loopStep (s : LoopState) (a : Act) : LoopState :=
  match a with
  | Act.enq d => { s with buffer := s.buffer ++ [d] }
  | Act.recvDelta =>
    if s.running then
      match s.buffer with
      | [] => s
      | d :: rest =>
        { s with buffer := rest, applied := s.applied ++ [d],
                 output := s.output ++ [d] }
    else s
  | Act.stop => { s with running := false }

/-- The drain loop run over a whole schedule, from the initial state (empty
channel, nothing applied or forwarded). -/
def runLoop (acts : List Act) : LoopState :=
  acts.foldl loopStep { buffer := [], applied := [], output := [], running := true }

/-- The deltas the workers sent during a schedule, in send order. -/
def enqueuedDeltas (acts : List Act) : List Nat :=
  acts.filterMap (fun a => match a with | Act.enq d => some d | _ => none)

/-! ## Helper lemmas -/

lemma enqueuedDeltas_cons (a : Act) (as : List Act) :
    enqueuedDeltas (a :: as) = enqueuedDeltas [a] ++ enqueuedDeltas as := by
  cases a <;> simp [enqueuedDeltas]

lemma loopStep_applied_eq_output (s : LoopState) (a : Act)
    (h : s.applied = s.output) :
    (loopStep s a).applied = (loopStep s a).output := by
  cases a with
  | enq d => simpa [loopStep] using h
  | recvDelta =>
    by_cases hr : s.running
    · cases hbuf : s.buffer with
      | nil => simpa [loopStep, hr, hbuf] using h
      | cons d rest => simp [loopStep, hr, hbuf, h]
    · simpa [loopStep, hr] using h
  | stop => simpa [loopStep] using h

lemma loopStep_conserves (s : LoopState) (a : Act) :
    (loopStep s a).output ++ (loopStep s a).buffer =
      s.output ++ s.buffer ++ enqueuedDeltas [a] := by
  cases a with
  | enq d => simp [loopStep, enqueuedDeltas]
  | recvDelta =>
    by_cases hr : s.running
    · cases hbuf : s.buffer with
      | nil => simp [loopStep, hr, hbuf, enqueuedDeltas]
      | cons d rest => simp [loopStep, hr, hbuf, enqueuedDeltas]
    · simp [loopStep, hr, enqueuedDeltas]
  | stop => simp [loopStep, enqueuedDeltas]

lemma runLoop_fold_inv (acts : List Act) : ∀ s : LoopState,
    s.applied = s.output →
    (acts.foldl loopStep s).applied = (acts.foldl loopStep s).output ∧
    (acts.foldl loopStep s).output ++ (acts.foldl loopStep s).buffer =
      s.output ++ s.buffer ++ enqueuedDeltas acts := by
  induction acts with
  | nil => intro s h; exact ⟨h, by simp [enqueuedDeltas]⟩
  | cons a as ih =>
    intro s h
    have h1 := loopStep_applied_eq_output s a h
    have h2 := loopStep_conserves s a
    have h3 := ih (loopStep s a) h1
    refine ⟨by simpa [List.foldl_cons] using h3.1, ?_⟩
    rw [List.foldl_cons, h3.2, h2, enqueuedDeltas_cons a as]
    simp [List.append_assoc]

/-! ## Claims -/

/-- C2 counterexample: the shutdown sequence of `Run` is not
"close the Introduce source, then the delta-collection channel, then the
output sink" after the worker wait — the deferred closes execute in the
opposite order. -/
theorem shutdown_close_order_ne_claim :
    runShutdownSequence ≠
      [ShutEvent.closeExec, ShutEvent.waitWorkers, ShutEvent.closeInflow,
       ShutEvent.closeDts, ShutEvent.closeDeltas] := by
  decide

/-- C2 (amended): on shutdown `Run` first closes the Advance request
source (`exec`), then waits for all workers to finish in-flight work, and
only then runs the deferred closes, which fire in last-in-first-out order:
the output sink (`deltas`), then the delta-collection channel (`dts`),
then the Introduce source (`inflow`). -/
theorem shutdown_close_order :
    runShutdownSequence =
      [ShutEvent.closeExec, ShutEvent.waitWorkers, ShutEvent.closeDeltas,
       ShutEvent.closeDts, ShutEvent.closeInflow] := by
  decide

/-- C1 counterexample: a worker sends delta `0` into the buffered
collection channel, the stop signal is handled next, and `Run`'s loop
terminates without applying or forwarding that delta — a Delta sent by a
worker that never appears in the output stream. -/
theorem stop_discards_buffered_delta :
    enqueuedDeltas [Act.enq 0, Act.stop] = [0] ∧
    (runLoop [Act.enq 0, Act.stop]).running = false ∧
    (runLoop [Act.enq 0, Act.stop]).applied = [] ∧
    (runLoop [Act.enq 0, Act.stop]).output = [] := by
  decide

/-- C1 (amended): under every interleaving of worker sends, stop and
receives, each Delta the coordinator dequeues from the collection channel
is applied to the authoritative store and forwarded to the output stream
exactly once and in dequeue order (the applied sequence equals the output
sequence), and the output stream followed by the still-buffered Deltas is
exactly the sequence of Deltas the workers sent — so no dequeued Delta is
lost or duplicated, but Deltas still in the collection channel when the
stop signal is handled are dropped: they are neither applied nor
forwarded. -/
theorem drain_loop_delta_accounting (acts : List Act) :
    (runLoop acts).applied = (runLoop acts).output ∧
    (runLoop acts).output ++ (runLoop acts).buffer = enqueuedDeltas acts := by
  have h := runLoop_fold_inv acts
    { buffer := [], applied := [], output := [], running := true } rfl
  simpa [runLoop] using h

/-- C4: the steady-state loop's countdown starts at
`Config.InflowFrequency`; each tick decrements it; when the decremented
countdown reaches zero the tick sends exactly one Introduce request and
resets the countdown to the current Config's InflowFrequency; every tick
sends exactly one Advance request. -/
theorem tick_countdown_step (countdown : Int) (cfg : Config) :
    runInitialCountdown cfg = cfg.inflowFrequency ∧
    (tickStep countdown cfg).2.2 = 1 ∧
    (countdown - 1 = 0 →
      tickStep countdown cfg = (cfg.inflowFrequency, 1, 1)) ∧
    (countdown - 1 ≠ 0 →
      tickStep countdown cfg = (countdown - 1, 0, 1)) := by
  refine ⟨rfl, ?_, ?_, ?_⟩
  · by_cases h : countdown - 1 = 0 <;> simp [tickStep, h]
  · intro h; simp [tickStep, h]
  · intro h; simp [tickStep, h]

/-- C4 witness: at countdown `1` the tick introduces and resets to the
default frequency; at countdown `5` it only advances. -/
theorem tick_countdown_step_witness :
    tickStep 1 defaultConfig = (defaultConfig.inflowFrequency, 1, 1) ∧
    tickStep 5 defaultConfig = (4, 0, 1) :=
  ⟨(tick_countdown_step 1 defaultConfig).2.2.1 (by decide),
   (tick_countdown_step 5 defaultConfig).2.2.2 (by decide)⟩

/-- C7: a worker processing an Advance request while the alive-membership
set is empty produces no Delta for that request and issues exactly one
Introduce request (the asynchronously spawned `inflow <- true`). -/
theorem advance_on_empty_population (e : EnvState) (r : Nat)
    (exec : Cell → Delta) (h : e.liveCells = ∅) :
    processExec e r exec = (none, 1) := by
  simp [processExec, getRandomLiveCell, h, Finset.sort_empty]

/-- C7 witness: on a freshly constructed 2×2 environment (empty
population) the Advance branch yields no delta and one Introduce
request. -/
theorem advance_on_empty_population_witness :
    processExec (NewEnv 2 2 1) 0 (fun _ => Delta.mk []) = (none, 1) :=
  advance_on_empty_population (NewEnv 2 2 1) 0 (fun _ => Delta.mk []) rfl

lemma get?_isSome_of_lt {α : Type} {l : List α} {n : Nat}
    (h : n < l.length) : (l.get? n).isSome = true := by
  rw [List.get?_eq_getElem?, List.getElem?_eq_getElem h]
  rfl

lemma wrap32_eq_self (z : Int) (h1 : -2147483648 ≤ z)
    (h2 : z < 2147483648) : wrap32 z = z := by
  unfold wrap32
  rw [Int.emod_eq_of_lt (by omega) (by omega)]
  omega

lemma GetCell_isSome (e : EnvState) (x y : Int)
    (hlen : e.cells.length = (e.width * e.height).toNat)
    (hi32 : e.width * e.height ≤ 2147483648)
    (hx0 : 0 ≤ x) (hx1 : x < e.width) (hy0 : 0 ≤ y) (hy1 : y < e.height) :
    (GetCell e x y).isSome = true := by
  have hw0 : 0 ≤ e.width := le_of_lt (lt_of_le_of_lt hx0 hx1)
  have hidx0 : 0 ≤ x + e.width * y := by
    have := mul_nonneg hw0 hy0
    omega
  have hmul : e.width * y ≤ e.width * (e.height - 1) :=
    mul_le_mul_of_nonneg_left (by omega) hw0
  have hring : e.width + e.width * (e.height - 1) = e.width * e.height := by
    ring
  have hidx1 : x + e.width * y < e.width * e.height := by omega
  have hwrap : wrap32 (x + e.width * y) = x + e.width * y :=
    wrap32_eq_self _ (by omega) (by omega)
  have hlt : (x + e.width * y).toNat < e.cells.length := by
    rw [hlen]; omega
  simp only [GetCell, hwrap, if_pos hidx0]
  rw [List.get?_eq_getElem?, List.getElem?_eq_getElem hlt]
  rfl

/-- C8: on any grid with `width, height ≥ 1` whose size is representable
in `int32` (as every grid a Go `NewEnv` can allocate is, `Width` and
`Height` being `int32` and the slice length a nonnegative `int32`), the
neighbor of an in-grid cell in each of the four directions has an in-grid
coordinate; the stepped coordinate is exactly the wrapping
decrement/increment (the one-step shift modulo the dimension, so `x = 0`
with direction left yields `width - 1`), and reading the neighbor never
faults on a full-size cell array. -/
theorem neighbor_wraps_in_grid (e : EnvState) (c : Cell) (dir : Nat)
    (hw : 1 ≤ e.width) (hh : 1 ≤ e.height)
    (hx : 0 ≤ c.x ∧ c.x < e.width) (hy : 0 ≤ c.y ∧ c.y < e.height)
    (hdir : dir < 4)
    (hlen : e.cells.length = (e.width * e.height).toNat)
    (hi32 : e.width * e.height ≤ 2147483648) :
    (0 ≤ (neighborCoord e c dir).1 ∧ (neighborCoord e c dir).1 < e.width) ∧
    (0 ≤ (neighborCoord e c dir).2 ∧ (neighborCoord e c dir).2 < e.height) ∧
    (dir = DIR_LEFT → neighborCoord e c dir = ((c.x - 1) % e.width, c.y)) ∧
    (dir = DIR_RIGHT → neighborCoord e c dir = ((c.x + 1) % e.width, c.y)) ∧
    (dir = DIR_UP → neighborCoord e c dir = (c.x, (c.y - 1) % e.height)) ∧
    (dir = DIR_DOWN → neighborCoord e c dir = (c.x, (c.y + 1) % e.height)) ∧
    (getNeighbor e c dir).isSome = true := by
  have wrapDec : ∀ z m : Int, 1 ≤ m → 0 ≤ z → z < m →
      (z - 1) % m = if z = 0 then m - 1 else z - 1 := by
    intro z m hm hz0 hz1
    by_cases h0 : z = 0
    · rw [if_pos h0, h0]
      have h : (0 : Int) - 1 = (m - 1) - m := by ring
      rw [h, Int.emod_sub_cancel, Int.emod_eq_of_lt (by omega) (by omega)]
    · rw [if_neg h0, Int.emod_eq_of_lt (by omega) (by omega)]
  have wrapInc : ∀ z m : Int, 1 ≤ m → 0 ≤ z → z < m →
      (z + 1) % m = if z = m - 1 then 0 else z + 1 := by
    intro z m hm hz0 hz1
    by_cases h0 : z = m - 1
    · rw [if_pos h0, h0]
      have h : (m : Int) - 1 + 1 = m := by ring
      rw [h, Int.emod_self]
    · rw [if_neg h0, Int.emod_eq_of_lt (by omega) (by omega)]
  have hco : (0 ≤ (neighborCoord e c dir).1 ∧ (neighborCoord e c dir).1 < e.width) ∧
      (0 ≤ (neighborCoord e c dir).2 ∧ (neighborCoord e c dir).2 < e.height) := by
    interval_cases dir
    · refine ⟨?_, hy⟩
      show 0 ≤ (if c.x = 0 then e.width - 1 else c.x - 1) ∧
        (if c.x = 0 then e.width - 1 else c.x - 1) < e.width
      split <;> omega
    · refine ⟨?_, hy⟩
      show 0 ≤ (if c.x = e.width - 1 then 0 else c.x + 1) ∧
        (if c.x = e.width - 1 then 0 else c.x + 1) < e.width
      split <;> omega
    · refine ⟨hx, ?_⟩
      show 0 ≤ (if c.y = 0 then e.height - 1 else c.y - 1) ∧
        (if c.y = 0 then e.height - 1 else c.y - 1) < e.height
      split <;> omega
    · refine ⟨hx, ?_⟩
      show 0 ≤ (if c.y = e.height - 1 then 0 else c.y + 1) ∧
        (if c.y = e.height - 1 then 0 else c.y + 1) < e.height
      split <;> omega
  refine ⟨hco.1, hco.2, ?_, ?_, ?_, ?_, ?_⟩
  · intro hd; subst hd
    show (if c.x = 0 then e.width - 1 else c.x - 1, c.y) =
      ((c.x - 1) % e.width, c.y)
    rw [wrapDec c.x e.width hw hx.1 hx.2]
  · intro hd; subst hd
    show (if c.x = e.width - 1 then 0 else c.x + 1, c.y) =
      ((c.x + 1) % e.width, c.y)
    rw [wrapInc c.x e.width hw hx.1 hx.2]
  · intro hd; subst hd
    show (c.x, if c.y = 0 then e.height - 1 else c.y - 1) =
      (c.x, (c.y - 1) % e.height)
    rw [wrapDec c.y e.height hh hy.1 hy.2]
  · intro hd; subst hd
    show (c.x, if c.y = e.height - 1 then 0 else c.y + 1) =
      (c.x, (c.y + 1) % e.height)
    rw [wrapInc c.y e.height hh hy.1 hy.2]
  · exact GetCell_isSome e _ _ hlen hi32 hco.1.1 hco.1.2 hco.2.1 hco.2.2

/-- C8 witness: on the fresh 3×2 grid, the left neighbor of the cell at
`(0, 0)` wraps to `x = 2`, in grid, and the read succeeds. -/
theorem neighbor_wraps_in_grid_witness :
    (0 ≤ (neighborCoord (NewEnv 3 2 1) (newCell 0 0 0 1) DIR_LEFT).1 ∧
      (neighborCoord (NewEnv 3 2 1) (newCell 0 0 0 1) DIR_LEFT).1 <
        (NewEnv 3 2 1).width) ∧
    (0 ≤ (neighborCoord (NewEnv 3 2 1) (newCell 0 0 0 1) DIR_LEFT).2 ∧
      (neighborCoord (NewEnv 3 2 1) (newCell 0 0 0 1) DIR_LEFT).2 <
        (NewEnv 3 2 1).height) ∧
    (DIR_LEFT = DIR_LEFT →
      neighborCoord (NewEnv 3 2 1) (newCell 0 0 0 1) DIR_LEFT =
        (((newCell 0 0 0 1).x - 1) % (NewEnv 3 2 1).width, (newCell 0 0 0 1).y)) ∧
    (DIR_LEFT = DIR_RIGHT →
      neighborCoord (NewEnv 3 2 1) (newCell 0 0 0 1) DIR_LEFT =
        (((newCell 0 0 0 1).x + 1) % (NewEnv 3 2 1).width, (newCell 0 0 0 1).y)) ∧
    (DIR_LEFT = DIR_UP →
      neighborCoord (NewEnv 3 2 1) (newCell 0 0 0 1) DIR_LEFT =
        ((newCell 0 0 0 1).x, ((newCell 0 0 0 1).y - 1) % (NewEnv 3 2 1).height)) ∧
    (DIR_LEFT = DIR_DOWN →
      neighborCoord (NewEnv 3 2 1) (newCell 0 0 0 1) DIR_LEFT =
        ((newCell 0 0 0 1).x, ((newCell 0 0 0 1).y + 1) % (NewEnv 3 2 1).height)) ∧
    (getNeighbor (NewEnv 3 2 1) (newCell 0 0 0 1) DIR_LEFT).isSome = true :=
  neighbor_wraps_in_grid (NewEnv 3 2 1) (newCell 0 0 0 1) DIR_LEFT
    (by decide) (by decide) (by decide) (by decide) (by decide) (by decide)
    (by decide)

/-- C9 counterexample: on a fresh 4×4 environment the coordinate pair
`(4, 0)` is outside `[0, Width) × [0, Height)`, yet `GetCell 4 0` does not
fault — its linear index `4 + 4*0 = 4` aliases the in-range cell at
`(0, 1)` and a cell is returned. -/
theorem getCell_out_of_range_returns_cell :
    ¬ ((4 : Int) < (NewEnv 4 4 1).width) ∧
    (GetCell (NewEnv 4 4 1) 4 0).isSome = true := by
  decide

/-- C9 (amended): `GetCell x y` faults exactly when the `int32`-wrapped
linear index `wrap32 (x + Width*y)` falls outside `[0, Width*Height)`; an
out-of-range coordinate pair whose wrapped index still lands inside that
interval does not fault and instead returns the cell stored at the
aliased index. -/
theorem getCell_fault_iff (e : EnvState) (x y : Int)
    (hlen : e.cells.length = (e.width * e.height).toNat)
    (hwh : 0 ≤ e.width * e.height) :
    GetCell e x y = none ↔
      (wrap32 (x + e.width * y) < 0 ∨
        e.width * e.height ≤ wrap32 (x + e.width * y)) := by
  by_cases h0 : 0 ≤ wrap32 (x + e.width * y)
  · simp only [GetCell, if_pos h0, Option.map_eq_none', List.get?_eq_none]
    rw [hlen]
    omega
  · simp only [GetCell, if_neg h0]
    constructor
    · intro _; left; omega
    · intro _; trivial

/-- C9 witness: on the fresh 4×4 environment, `GetCell 4 3` has wrapped
linear index `16`, outside `[0, 16)`, and faults; while the out-of-range
pair `(2147483647, 536870913)` has `int32`-wrapped linear index `3` — the
`int32` computation `2147483647 + 4*536870913` overflows to `3` — lands
inside `[0, 16)` and does not fault. -/
theorem getCell_fault_iff_witness :
    GetCell (NewEnv 4 4 1) 4 3 = none ∧
    GetCell (NewEnv 4 4 1) 2147483647 536870913 ≠ none :=
  ⟨(getCell_fault_iff (NewEnv 4 4 1) 4 3 (by decide) (by decide)).mpr
    (by decide),
   fun hn => absurd
    ((getCell_fault_iff (NewEnv 4 4 1) 2147483647 536870913 (by decide)
      (by decide)).mp hn)
    (by decide)⟩

lemma applyCell_length (e : EnvState) (c : Cell) :
    (applyCell e c).cells.length = e.cells.length := by
  simp [applyCell]

lemma applyCell_frame_get? (e : EnvState) (c : Cell) (i : Nat)
    (h0 : 0 ≤ c.idx) (hne : c.idx ≠ (i : Int)) :
    (applyCell e c).cells.get? i = e.cells.get? i := by
  have hm : c.idx.toNat ≠ i := by omega
  simp only [applyCell]
  exact List.get?_set_ne _ _ hm

lemma applyCell_frame_mem (e : EnvState) (c : Cell) (i : Nat)
    (hne : c.idx ≠ (i : Int)) :
    ((i : Int) ∈ (applyCell e c).liveCells ↔ (i : Int) ∈ e.liveCells) := by
  simp only [applyCell]
  by_cases hl : c.live
  · rw [if_pos hl, Finset.mem_insert]
    constructor
    · rintro (h | h)
      · exact absurd h.symm hne
      · exact h
    · exact Or.inr
  · rw [if_neg hl, Finset.mem_erase]
    constructor
    · exact And.right
    · intro h; exact ⟨fun h2 => hne h2.symm, h⟩

lemma applyCells_frame (cs : List Cell) : ∀ (e : EnvState) (i : Nat),
    (∀ c ∈ cs, 0 ≤ c.idx) → (∀ c ∈ cs, c.idx ≠ (i : Int)) →
    (cs.foldl applyCell e).cells.get? i = e.cells.get? i ∧
    ((i : Int) ∈ (cs.foldl applyCell e).liveCells ↔
      (i : Int) ∈ e.liveCells) := by
  induction cs with
  | nil => intro e i _ _; exact ⟨rfl, Iff.rfl⟩
  | cons c cs ih =>
    intro e i hwf hne
    have h1 := applyCell_frame_get? e c i (hwf c (by simp)) (hne c (by simp))
    have h2 := applyCell_frame_mem e c i (hne c (by simp))
    have h3 := ih (applyCell e c) i
      (fun d hd => hwf d (List.mem_cons_of_mem c hd))
      (fun d hd => hne d (List.mem_cons_of_mem c hd))
    rw [List.foldl_cons]
    exact ⟨h3.1.trans h1, h3.2.trans h2⟩

/-- C10: `applyDelta` modifies only the entries at the indices appearing
in the Delta — at every array position whose index is not that of any cell
of the Delta, the stored cell and its alive-membership status are
unchanged. -/
theorem applyDelta_frame (e : EnvState) (dt : Delta) (i : Nat)
    (hwf : ∀ c ∈ dt.cells, 0 ≤ c.idx)
    (hne : ∀ c ∈ dt.cells, c.idx ≠ (i : Int)) :
    (applyDelta e dt).cells.get? i = e.cells.get? i ∧
    ((i : Int) ∈ (applyDelta e dt).liveCells ↔ (i : Int) ∈ e.liveCells) :=
  applyCells_frame dt.cells e i hwf hne

/-- C10 witness: applying a delta that touches only index `0` of the
fresh 2×2 environment leaves the stored cell and membership status at
index `1` unchanged. -/
theorem applyDelta_frame_witness :
    (applyDelta (NewEnv 2 2 1) (Delta.mk [Cell.mk 0 0 0 true 0])).cells.get? 1 =
      (NewEnv 2 2 1).cells.get? 1 ∧
    ((1 : Int) ∈ (applyDelta (NewEnv 2 2 1)
        (Delta.mk [Cell.mk 0 0 0 true 0])).liveCells ↔
      (1 : Int) ∈ (NewEnv 2 2 1).liveCells) :=
  applyDelta_frame (NewEnv 2 2 1) (Delta.mk [Cell.mk 0 0 0 true 0]) 1
    (by decide) (by decide)

lemma mem_aliveIndices {e : EnvState} {i : Int} :
    i ∈ aliveIndices e ↔
      0 ≤ i ∧ i.toNat < e.cells.length ∧ aliveAt e i.toNat = true := by
  unfold aliveIndices
  simp only [Finset.mem_image, Finset.mem_filter, Finset.mem_range]
  constructor
  · rintro ⟨j, ⟨hj, ha⟩, rfl⟩
    refine ⟨Int.ofNat_nonneg j, ?_, ?_⟩
    · simpa using hj
    · simpa using ha
  · rintro ⟨h0, hlt, ha⟩
    exact ⟨i.toNat, ⟨hlt, ha⟩, Int.toNat_of_nonneg h0⟩

lemma aliveAt_applyCell (e : EnvState) (c : Cell) (j : Nat)
    (hlt : c.idx.toNat < e.cells.length) :
    aliveAt (applyCell e c) j =
      if c.idx.toNat = j then c.alive else aliveAt e j := by
  unfold aliveAt
  simp only [applyCell]
  rw [List.get?_set]
  by_cases hj : c.idx.toNat = j
  · rw [if_pos hj, if_pos hj]
    subst hj
    cases hg : e.cells.get? c.idx.toNat with
    | none =>
      rw [List.get?_eq_none] at hg
      omega
    | some a => rfl
  · rw [if_neg hj, if_neg hj]

lemma applyCell_aliveInv (e : EnvState) (c : Cell)
    (h0 : 0 ≤ c.idx) (h1 : c.idx < (e.cells.length : Int))
    (hinv : aliveInv e) : aliveInv (applyCell e c) := by
  have hlt : c.idx.toNat < e.cells.length := by omega
  show (applyCell e c).liveCells = aliveIndices (applyCell e c)
  ext i
  rw [mem_aliveIndices, applyCell_length, aliveAt_applyCell e c i.toNat hlt]
  show (i ∈ if c.live then insert c.idx e.liveCells
    else e.liveCells.erase c.idx) ↔ _
  by_cases hl : c.live
  · rw [if_pos hl, Finset.mem_insert]
    have hca : c.alive = true := hl
    constructor
    · rintro (rfl | hi)
      · refine ⟨h0, by omega, ?_⟩
        rw [if_pos rfl]
        exact hca
      · rw [hinv, mem_aliveIndices] at hi
        refine ⟨hi.1, hi.2.1, ?_⟩
        by_cases hj : c.idx.toNat = i.toNat
        · rw [if_pos hj]; exact hca
        · rw [if_neg hj]; exact hi.2.2
    · rintro ⟨hi0, hilt, ha⟩
      by_cases hj : c.idx.toNat = i.toNat
      · left; omega
      · right
        rw [if_neg hj] at ha
        rw [hinv, mem_aliveIndices]
        exact ⟨hi0, hilt, ha⟩
  · rw [if_neg hl, Finset.mem_erase]
    have hca : c.alive = false := by
      cases hcl : c.alive
      · rfl
      · exact absurd hcl hl
    constructor
    · rintro ⟨hne, hi⟩
      rw [hinv, mem_aliveIndices] at hi
      refine ⟨hi.1, hi.2.1, ?_⟩
      have hj : c.idx.toNat ≠ i.toNat := by omega
      rw [if_neg hj]
      exact hi.2.2
    · rintro ⟨hi0, hilt, ha⟩
      by_cases hj : c.idx.toNat = i.toNat
      · rw [if_pos hj, hca] at ha
        exact absurd ha (by simp)
      · refine ⟨by omega, ?_⟩
        rw [hinv, mem_aliveIndices]
        rw [if_neg hj] at ha
        exact ⟨hi0, hilt, ha⟩

lemma aliveAt_NewEnv (w h g : Int) (j : Nat) :
    aliveAt (NewEnv w h g) j = false := by
  show (match ((List.range (w * h).toNat).map
      (fun i : Nat => newCell (i : Int) ((i : Int) % w) ((i : Int) / w) g)).get? j with
    | some c => c.alive
    | none => false) = false
  rw [List.get?_map]
  cases (List.range (w * h).toNat).get? j with
  | none => rfl
  | some a => rfl

lemma aliveInv_NewEnv (w h g : Int) : aliveInv (NewEnv w h g) := by
  show (∅ : Finset Int) = aliveIndices (NewEnv w h g)
  symm
  apply Finset.eq_empty_of_forall_not_mem
  intro i hi
  rw [mem_aliveIndices, aliveAt_NewEnv] at hi
  exact absurd hi.2.2 (by simp)

lemma applyCells_aliveInv (cs : List Cell) : ∀ e : EnvState,
    (∀ c ∈ cs, 0 ≤ c.idx ∧ c.idx < (e.cells.length : Int)) → aliveInv e →
    aliveInv (cs.foldl applyCell e) := by
  induction cs with
  | nil => intro e _ hinv; exact hinv
  | cons c cs ih =>
    intro e hwf hinv
    rw [List.foldl_cons]
    apply ih
    · intro d hd
      rw [applyCell_length]
      exact hwf d (List.mem_cons_of_mem c hd)
    · exact applyCell_aliveInv e c (hwf c (by simp)).1 (hwf c (by simp)).2 hinv

/-- C3: a freshly constructed environment satisfies the membership
invariant — the alive-membership set equals `{ i : cells[i].alive }` — and
every `applyDelta` call (whose cells address the array) preserves it. -/
theorem store_alive_membership_invariant (w h g : Int) (e : EnvState)
    (dt : Delta)
    (hwf : ∀ c ∈ dt.cells, 0 ≤ c.idx ∧ c.idx < (e.cells.length : Int))
    (hinv : aliveInv e) :
    aliveInv (NewEnv w h g) ∧ aliveInv (applyDelta e dt) :=
  ⟨aliveInv_NewEnv w h g, applyCells_aliveInv dt.cells e hwf hinv⟩

/-- C3 witness: the fresh 2×2 environment satisfies the invariant, and so
does the result of applying a delta that makes cell `0` alive. -/
theorem store_alive_membership_invariant_witness :
    aliveInv (NewEnv 2 2 1) ∧
    aliveInv (applyDelta (NewEnv 2 2 1) (Delta.mk [Cell.mk 0 0 0 true 5])) :=
  store_alive_membership_invariant 2 2 1 (NewEnv 2 2 1)
    (Delta.mk [Cell.mk 0 0 0 true 5]) (by decide) (by unfold aliveInv; decide)

lemma get?_lt_length {α : Type} {l : List α} {n : Nat} {a : α}
    (h2 : l.get? n = some a) : n < l.length := by
  by_contra hge
  rw [List.get?_eq_none.mpr (by omega)] at h2
  cases h2

lemma mem_cells_get? (e : EnvState) (hidx : wfIdx e) {c : Cell}
    (hc : c ∈ e.cells) :
    0 ≤ c.idx ∧ c.idx.toNat < e.cells.length ∧
      e.cells.get? c.idx.toNat = some c := by
  obtain ⟨n, hn⟩ := List.mem_iff_get?.mp hc
  have hlt : n < e.cells.length := get?_lt_length hn
  have hcid : c.idx = (n : Int) := by
    have h2 := hidx n hlt
    unfold cellIdxAt at h2
    rw [hn] at h2
    exact h2
  refine ⟨by omega, by omega, ?_⟩
  rw [show c.idx.toNat = n by omega]
  exact hn

lemma alive_iff_mem (e : EnvState) (hinv : aliveInv e) {c : Cell} {n : Nat}
    (hn : e.cells.get? n = some c) :
    (c.alive = true ↔ (n : Int) ∈ e.liveCells) := by
  have hlt : n < e.cells.length := get?_lt_length hn
  have htn : ((n : Int)).toNat = n := by omega
  rw [hinv, mem_aliveIndices, htn]
  unfold aliveAt
  rw [hn]
  constructor
  · intro ha
    exact ⟨by omega, hlt, ha⟩
  · rintro ⟨_, _, ha⟩
    exact ha

lemma cell_alive_iff_mem (e : EnvState) (hinv : aliveInv e)
    (hidx : wfIdx e) {c : Cell} (hc : c ∈ e.cells) :
    (c.alive = true ↔ c.idx ∈ e.liveCells) := by
  obtain ⟨h0, hlt, hget⟩ := mem_cells_get? e hidx hc
  have h2 := alive_iff_mem e hinv hget
  have hcast : ((c.idx.toNat : Nat) : Int) = c.idx := by omega
  rw [hcast] at h2
  exact h2

lemma cells_get?_of_mem_live (e : EnvState) (i : Int)
    (hinv : aliveInv e) (hi : i ∈ e.liveCells) :
    0 ≤ i ∧ ∃ c : Cell, e.cells.get? i.toNat = some c ∧ c.alive = true := by
  rw [hinv, mem_aliveIndices] at hi
  obtain ⟨h0, hlt, ha⟩ := hi
  unfold aliveAt at ha
  cases hg : e.cells.get? i.toNat with
  | none => rw [hg] at ha; exact absurd ha (by simp)
  | some c => rw [hg] at ha; exact ⟨h0, c, rfl, ha⟩

lemma getRandomLiveCell_none_iff (e : EnvState) (r : Nat)
    (hinv : aliveInv e) :
    (getRandomLiveCell e r = none ↔ e.liveCells = ∅) := by
  constructor
  · intro hnone
    by_contra hne
    have hcard : 0 < e.liveCells.card :=
      Finset.card_pos.mpr (Finset.nonempty_iff_ne_empty.mpr hne)
    have hlen : (e.liveCells.sort (· ≤ ·)).length = e.liveCells.card :=
      Finset.length_sort (· ≤ ·)
    have hmod : r % (e.liveCells.sort (· ≤ ·)).length <
        (e.liveCells.sort (· ≤ ·)).length := Nat.mod_lt _ (by omega)
    obtain ⟨i, hg⟩ := Option.isSome_iff_exists.mp (get?_isSome_of_lt hmod)
    have hmem : i ∈ e.liveCells :=
      (Finset.mem_sort (· ≤ ·)).mp (List.get?_mem hg)
    obtain ⟨h0, c0, hc0, _⟩ := cells_get?_of_mem_live e i hinv hmem
    have hval : getRandomLiveCell e r =
        (e.cells.get? i.toNat).map Cell.clone := by
      unfold getRandomLiveCell
      rw [hg]
    rw [hval, hc0] at hnone
    cases hnone
  · intro hemp
    unfold getRandomLiveCell
    rw [hemp, Finset.sort_empty]
    rfl

lemma getRandomLiveCell_some (e : EnvState) (r : Nat)
    (hinv : aliveInv e) (hidx : wfIdx e) :
    ∀ c, getRandomLiveCell e r = some c →
      c.idx ∈ e.liveCells ∧ c.alive = true ∧
      e.cells.get? c.idx.toNat = some c := by
  intro c hc
  cases hg : (e.liveCells.sort (· ≤ ·)).get?
      (r % (e.liveCells.sort (· ≤ ·)).length) with
  | none =>
    have hval : getRandomLiveCell e r = none := by
      unfold getRandomLiveCell
      rw [hg]
    rw [hval] at hc
    cases hc
  | some i =>
    have hval : getRandomLiveCell e r =
        (e.cells.get? i.toNat).map Cell.clone := by
      unfold getRandomLiveCell
      rw [hg]
    have hmem : i ∈ e.liveCells :=
      (Finset.mem_sort (· ≤ ·)).mp (List.get?_mem hg)
    obtain ⟨h0, c0, hc0, hca0⟩ := cells_get?_of_mem_live e i hinv hmem
    rw [hval, hc0] at hc
    have hcc : c0 = c := by simpa [Cell.clone] using hc
    subst hcc
    have hlt : i.toNat < e.cells.length := get?_lt_length hc0
    have hcid : c0.idx = (i.toNat : Int) := by
      have h2 := hidx i.toNat hlt
      unfold cellIdxAt at h2
      rw [hc0] at h2
      exact h2
    have hcidi : c0.idx = i := by omega
    rw [hcidi]
    exact ⟨hmem, hca0, hc0⟩

lemma deadIdxBuf_sound (e : EnvState) (hidx : wfIdx e) {i : Int}
    (hi : i ∈ deadIdxBuf e) :
    ∃ c : Cell, e.cells.get? i.toNat = some c ∧ c.idx = i ∧
      c.idx ∉ e.liveCells := by
  unfold deadIdxBuf at hi
  obtain ⟨c, hcf, hci⟩ := List.mem_map.mp hi
  obtain ⟨hcmem, hcp⟩ := List.mem_filter.mp hcf
  have hnotin : c.idx ∉ e.liveCells := by simpa using hcp
  obtain ⟨h0, hlt, hget⟩ := mem_cells_get? e hidx hcmem
  subst hci
  exact ⟨c, hget, rfl, hnotin⟩

lemma deadIdxBuf_nil_iff (e : EnvState) (hinv : aliveInv e)
    (hidx : wfIdx e) :
    (deadIdxBuf e = [] ↔ ∀ c ∈ e.cells, c.alive = true) := by
  unfold deadIdxBuf
  rw [List.map_eq_nil, List.filter_eq_nil]
  constructor
  · intro hall c hc
    have h1 := hall c hc
    have hmem : c.idx ∈ e.liveCells := by simpa using h1
    exact (cell_alive_iff_mem e hinv hidx hc).mpr hmem
  · intro hall c hc
    have hmem := (cell_alive_iff_mem e hinv hidx hc).mp (hall c hc)
    simp [hmem]

lemma getRandomDeadCell_none_iff (e : EnvState) (r : Nat)
    (hinv : aliveInv e) (hidx : wfIdx e) :
    (getRandomDeadCell e r = none ↔ ∀ c ∈ e.cells, c.alive = true) := by
  constructor
  · intro hnone
    rw [← deadIdxBuf_nil_iff e hinv hidx]
    by_contra hne
    have hpos : 0 < (deadIdxBuf e).length := List.length_pos.mpr hne
    have hmod : r % (deadIdxBuf e).length < (deadIdxBuf e).length :=
      Nat.mod_lt _ hpos
    obtain ⟨i, hg⟩ := Option.isSome_iff_exists.mp (get?_isSome_of_lt hmod)
    obtain ⟨c0, hc0, hcid, hnotin⟩ :=
      deadIdxBuf_sound e hidx (List.get?_mem hg)
    have hval : getRandomDeadCell e r =
        (e.cells.get? i.toNat).map Cell.clone := by
      unfold getRandomDeadCell
      rw [hg]
    rw [hval, hc0] at hnone
    cases hnone
  · intro hall
    have hnil : deadIdxBuf e = [] := (deadIdxBuf_nil_iff e hinv hidx).mpr hall
    unfold getRandomDeadCell
    rw [hnil]
    rfl

lemma getRandomDeadCell_some (e : EnvState) (r : Nat)
    (hinv : aliveInv e) (hidx : wfIdx e) :
    ∀ c, getRandomDeadCell e r = some c →
      c.idx ∉ e.liveCells ∧ c.alive = false ∧
      e.cells.get? c.idx.toNat = some c := by
  intro c hc
  cases hg : (deadIdxBuf e).get? (r % (deadIdxBuf e).length) with
  | none =>
    have hval : getRandomDeadCell e r = none := by
      unfold getRandomDeadCell
      rw [hg]
    rw [hval] at hc
    cases hc
  | some i =>
    obtain ⟨c0, hc0, hcid, hnotin⟩ :=
      deadIdxBuf_sound e hidx (List.get?_mem hg)
    have hval : getRandomDeadCell e r =
        (e.cells.get? i.toNat).map Cell.clone := by
      unfold getRandomDeadCell
      rw [hg]
    rw [hval, hc0] at hc
    have hcc : c0 = c := by simpa [Cell.clone] using hc
    subst hcc
    refine ⟨hnotin, ?_, ?_⟩
    · have hmem : c0 ∈ e.cells := List.get?_mem hc0
      have hiff := cell_alive_iff_mem e hinv hidx hmem
      cases hca : c0.alive
      · rfl
      · exact absurd (hiff.mp hca) hnotin
    · rw [hcid]
      exact hc0

/-- C6: on a well-formed store, `getRandomLiveCell` returns none iff the
alive-membership set is empty, and otherwise a copy of a stored cell of
the alive set; `getRandomDeadCell` returns none iff every cell is alive,
and otherwise a copy of a stored cell outside the alive set. -/
theorem random_cell_none_iff (e : EnvState) (r r' : Nat)
    (hinv : aliveInv e) (hidx : wfIdx e) :
    (getRandomLiveCell e r = none ↔ e.liveCells = ∅) ∧
    (∀ c, getRandomLiveCell e r = some c →
      c.idx ∈ e.liveCells ∧ c.alive = true ∧
      e.cells.get? c.idx.toNat = some c) ∧
    (getRandomDeadCell e r' = none ↔ ∀ c ∈ e.cells, c.alive = true) ∧
    (∀ c, getRandomDeadCell e r' = some c →
      c.idx ∉ e.liveCells ∧ c.alive = false ∧
      e.cells.get? c.idx.toNat = some c) :=
  ⟨getRandomLiveCell_none_iff e r hinv,
   getRandomLiveCell_some e r hinv hidx,
   getRandomDeadCell_none_iff e r' hinv hidx,
   getRandomDeadCell_some e r' hinv hidx⟩

/-- C6 witness: the fresh 2×2 environment (all cells dead) instantiates
the samplers' none/some characterization. -/
theorem random_cell_none_iff_witness :
    (getRandomLiveCell (NewEnv 2 2 1) 0 = none ↔
      (NewEnv 2 2 1).liveCells = ∅) ∧
    (∀ c, getRandomLiveCell (NewEnv 2 2 1) 0 = some c →
      c.idx ∈ (NewEnv 2 2 1).liveCells ∧ c.alive = true ∧
      (NewEnv 2 2 1).cells.get? c.idx.toNat = some c) ∧
    (getRandomDeadCell (NewEnv 2 2 1) 0 = none ↔
      ∀ c ∈ (NewEnv 2 2 1).cells, c.alive = true) ∧
    (∀ c, getRandomDeadCell (NewEnv 2 2 1) 0 = some c →
      c.idx ∉ (NewEnv 2 2 1).liveCells ∧ c.alive = false ∧
      (NewEnv 2 2 1).cells.get? c.idx.toNat = some c) :=
  random_cell_none_iff (NewEnv 2 2 1) 0 0 (by unfold aliveInv; decide)
    (by unfold wfIdx; decide)

/-- C5: the worker's Introduce branch — when the Config disallows
overwriting living cells it samples a random dead cell, silently dropping
the request with no Delta when none exists and otherwise forwarding the
Delta produced by the collaborator's introduce operation on the sampled
cell; when overwriting is allowed it samples any random cell (which always
succeeds on a full-size store whose grid size is representable in `int32`,
as every grid a Go `NewEnv` can allocate is) and forwards the Delta
likewise. -/
theorem introduce_request_behavior (e : EnvState) (cfg : Config)
    (r rx ry : Nat) (seed : Cell → Delta)
    (hlen : e.cells.length = (e.width * e.height).toNat)
    (hi32 : e.width * e.height ≤ 2147483648)
    (hw : 0 < e.width) (hh : 0 < e.height) :
    (cfg.seedLiveCells = false →
      (getRandomDeadCell e r = none →
        processInflow e cfg r rx ry seed = none) ∧
      (∀ c, getRandomDeadCell e r = some c →
        processInflow e cfg r rx ry seed = some (seed c))) ∧
    (cfg.seedLiveCells = true →
      ∃ c, getRandomCell e rx ry = some c ∧
        processInflow e cfg r rx ry seed = some (seed c)) := by
  constructor
  · intro hcfg
    constructor
    · intro hnone
      simp [processInflow, hcfg, hnone]
    · intro c hc
      simp [processInflow, hcfg, hc]
  · intro hcfg
    have hx0 : 0 ≤ (rx : Int) % e.width := Int.emod_nonneg _ (by omega)
    have hx1 : (rx : Int) % e.width < e.width := Int.emod_lt_of_pos _ hw
    have hy0 : 0 ≤ (ry : Int) % e.height := Int.emod_nonneg _ (by omega)
    have hy1 : (ry : Int) % e.height < e.height := Int.emod_lt_of_pos _ hh
    have hsome := GetCell_isSome e _ _ hlen hi32 hx0 hx1 hy0 hy1
    obtain ⟨c, hc⟩ := Option.isSome_iff_exists.mp hsome
    refine ⟨c, hc, ?_⟩
    simp [processInflow, hcfg, getRandomCell, hc]

/-- C5 witness: on the fresh 2×2 environment with the default Config
(overwriting disallowed), the Introduce branch samples the dead cell at
index 0 and forwards the collaborator's Delta for it. -/
theorem introduce_request_behavior_witness :
    processInflow (NewEnv 2 2 1) defaultConfig 0 0 0 (fun c => Delta.mk [c]) =
      some (Delta.mk [newCell 0 0 0 1]) :=
  ((introduce_request_behavior (NewEnv 2 2 1) defaultConfig 0 0 0
      (fun c => Delta.mk [c]) (by decide) (by decide) (by decide)
      (by decide)).1 rfl).2
    (newCell 0 0 0 1) (by decide)

end Petri
